import Mathlib

/-! Shallow embedding of the THP-aware RSS demonstrator `src/app.js`.

JavaScript double arithmetic is modelled as exact rational arithmetic
over `ℚ`; where NaN or an infinity can arise (the configuration values
built with `Number(...)` and the sums over `/proc/self/smaps`) the sum
type `JsNum` is used instead.  A best-effort file read (`rd`) is an
`Option String`: `none` models a read failure (the `catch` branch
returning `null`). -/

namespace ThpDemo

/-- JavaScript whitespace characters (the ASCII subset relevant to the
inputs of this program). -/
def wsChar (c : Char) : Bool :=
  c = ' ' || c = '\t' || c = '\n' || c = '\r' || c = '\x0b' || c = '\x0c'

/-- A JavaScript number: NaN, the two infinities, or a finite value
modelled as an exact rational. -/
inductive JsNum where
  | nan
  | posInf
  | negInf
  | num (q : ℚ)
  deriving DecidableEq

/-- JavaScript addition on `JsNum` (NaN propagates, opposite infinities
give NaN). -/
def jsAdd : JsNum → JsNum → JsNum
  | JsNum.nan, _ => JsNum.nan
  | _, JsNum.nan => JsNum.nan
  | JsNum.posInf, JsNum.negInf => JsNum.nan
  | JsNum.negInf, JsNum.posInf => JsNum.nan
  | JsNum.posInf, _ => JsNum.posInf
  | _, JsNum.posInf => JsNum.posInf
  | JsNum.negInf, _ => JsNum.negInf
  | _, JsNum.negInf => JsNum.negInf
  | JsNum.num a, JsNum.num b => JsNum.num (a + b)

/-- JavaScript `Math.max` on two arguments (NaN propagates). -/
def jsMax : JsNum → JsNum → JsNum
  | JsNum.nan, _ => JsNum.nan
  | _, JsNum.nan => JsNum.nan
  | JsNum.posInf, _ => JsNum.posInf
  | _, JsNum.posInf => JsNum.posInf
  | JsNum.negInf, b => b
  | a, JsNum.negInf => a
  | JsNum.num a, JsNum.num b => JsNum.num (max a b)

/-- JavaScript `Math.min` on two arguments (NaN propagates). -/
def jsMin : JsNum → JsNum → JsNum
  | JsNum.nan, _ => JsNum.nan
  | _, JsNum.nan => JsNum.nan
  | JsNum.negInf, _ => JsNum.negInf
  | _, JsNum.negInf => JsNum.negInf
  | JsNum.posInf, b => b
  | a, JsNum.posInf => a
  | JsNum.num a, JsNum.num b => JsNum.num (min a b)

/-- JavaScript multiplication on `JsNum`. -/
def jsMul : JsNum → JsNum → JsNum
  | JsNum.nan, _ => JsNum.nan
  | _, JsNum.nan => JsNum.nan
  | JsNum.posInf, JsNum.posInf => JsNum.posInf
  | JsNum.posInf, JsNum.negInf => JsNum.negInf
  | JsNum.negInf, JsNum.posInf => JsNum.negInf
  | JsNum.negInf, JsNum.negInf => JsNum.posInf
  | JsNum.posInf, JsNum.num b =>
      if 0 < b then JsNum.posInf else if b < 0 then JsNum.negInf else JsNum.nan
  | JsNum.num a, JsNum.posInf =>
      if 0 < a then JsNum.posInf else if a < 0 then JsNum.negInf else JsNum.nan
  | JsNum.negInf, JsNum.num b =>
      if 0 < b then JsNum.negInf else if b < 0 then JsNum.posInf else JsNum.nan
  | JsNum.num a, JsNum.negInf =>
      if 0 < a then JsNum.negInf else if a < 0 then JsNum.posInf else JsNum.nan
  | JsNum.num a, JsNum.num b => JsNum.num (a * b)

/-- JavaScript `Math.floor` (NaN and the infinities are fixed points). -/
def jsFloor : JsNum → JsNum
  | JsNum.num q => JsNum.num (Rat.floor q)
  | x => x

/-- JavaScript `Math.round` on a finite value: floor of x + 1/2. -/
def jsRound (q : ℚ) : ℚ := (Rat.floor (q + 1/2) : ℤ)

/-- Value of a list of decimal digit characters. -/
def digitsToNat (ds : List Char) : ℕ :=
  ds.foldl (fun a c => 10 * a + (c.toNat - 48)) 0

/-- Value of a single digit character in radix `b`, if valid. -/
def radixVal (b : ℕ) (c : Char) : Option ℕ :=
  let d :=
    if '0' ≤ c ∧ c ≤ '9' then some (c.toNat - 48)
    else if 'a' ≤ c ∧ c ≤ 'f' then some (c.toNat - 87)
    else if 'A' ≤ c ∧ c ≤ 'F' then some (c.toNat - 55)
    else none
  match d with
  | some v => if v < b then some v else none
  | none => none

/-- Accumulating radix-`b` parse of a digit string. -/
def parseRadixGo (b : ℕ) : List Char → ℕ → Option ℕ
  | [], acc => some acc
  | c :: cs, acc =>
    match radixVal b c with
    | some d => parseRadixGo b cs (b * acc + d)
    | none => none

/-- Whole-string radix-`b` numeral: nonempty, all digits valid. -/
def parseRadix (b : ℕ) (cs : List Char) : Option ℕ :=
  match cs with
  | [] => none
  | _ => parseRadixGo b cs 0

/-- Optionally signed whole-string decimal digit run, as an integer. -/
def parseSignedDigits : List Char → Option ℤ
  | '+' :: rest => (parseRadix 10 rest).map (fun n => (n : ℤ))
  | '-' :: rest => (parseRadix 10 rest).map (fun n => -(n : ℤ))
  | rest => (parseRadix 10 rest).map (fun n => (n : ℤ))

/-- Exponent suffix of a decimal literal: empty, or `e`/`E` followed by
an optionally signed digit run; the result is the exponent. -/
def parseExp : List Char → Option ℤ
  | [] => some 0
  | 'e' :: rest => parseSignedDigits rest
  | 'E' :: rest => parseSignedDigits rest
  | _ => none

/-- Decimal literal after the optional sign: digits with an optional
fraction part and an optional exponent, consuming the whole input. -/
def parseDecimal (cs : List Char) : Option ℚ :=
  let ip := cs.takeWhile Char.isDigit
  let rest1 := cs.drop ip.length
  match rest1 with
  | '.' :: rest2 =>
    let fp := rest2.takeWhile Char.isDigit
    let rest3 := rest2.drop fp.length
    if ip.isEmpty && fp.isEmpty then none
    else
      match parseExp rest3 with
      | some e =>
          some (((digitsToNat ip : ℚ) + (digitsToNat fp : ℚ) / (10 : ℚ) ^ fp.length)
            * (10 : ℚ) ^ e)
      | none => none
  | _ =>
    if ip.isEmpty then none
    else
      match parseExp rest1 with
      | some e => some ((digitsToNat ip : ℚ) * (10 : ℚ) ^ e)
      | none => none

/-- Trim JavaScript whitespace from both ends of a character list. -/
def trimWsList (cs : List Char) : List Char :=
  ((cs.dropWhile (fun c => wsChar c)).reverse.dropWhile (fun c => wsChar c)).reverse

/-- Signed tail of a `Number(string)` conversion: `Infinity` or a
decimal literal; anything else is NaN. -/
def signedTail (cs : List Char) (pos : Bool) : JsNum :=
  if cs = "Infinity".data then (if pos then JsNum.posInf else JsNum.negInf)
  else
    match parseDecimal cs with
    | some q => JsNum.num (if pos then q else -q)
    | none => JsNum.nan

/-- Model of the JavaScript `Number(string)` conversion: whitespace
trimming, the empty string converting to 0, optionally signed decimal
literals with fraction and exponent, `Infinity`, and unsigned
hexadecimal, octal and binary literals; anything else is NaN.  (Double
overflow of huge literals to Infinity is not modelled; the values are
kept exact.) -/
def jsNumber (s : String) : JsNum :=
  match trimWsList s.data with
  | [] => JsNum.num 0
  | '0' :: 'x' :: rest =>
      (match parseRadix 16 rest with | some n => JsNum.num n | none => JsNum.nan)
  | '0' :: 'X' :: rest =>
      (match parseRadix 16 rest with | some n => JsNum.num n | none => JsNum.nan)
  | '0' :: 'o' :: rest =>
      (match parseRadix 8 rest with | some n => JsNum.num n | none => JsNum.nan)
  | '0' :: 'O' :: rest =>
      (match parseRadix 8 rest with | some n => JsNum.num n | none => JsNum.nan)
  | '0' :: 'b' :: rest =>
      (match parseRadix 2 rest with | some n => JsNum.num n | none => JsNum.nan)
  | '0' :: 'B' :: rest =>
      (match parseRadix 2 rest with | some n => JsNum.num n | none => JsNum.nan)
  | '+' :: rest => signedTail rest true
  | '-' :: rest => signedTail rest false
  | cs => signedTail cs true

/-- Model of JavaScript `parseInt(s, 10)`: skip leading whitespace, an
optional sign, then the longest leading digit run; NaN when there is no
digit. -/
def parseIntJs (s : String) : JsNum :=
  let cs := s.data.dropWhile (fun c => wsChar c)
  match cs with
  | '+' :: rest =>
    let ds := rest.takeWhile Char.isDigit
    if ds.isEmpty then JsNum.nan else JsNum.num (digitsToNat ds)
  | '-' :: rest =>
    let ds := rest.takeWhile Char.isDigit
    if ds.isEmpty then JsNum.nan else JsNum.num (-(digitsToNat ds : ℚ))
  | rest =>
    let ds := rest.takeWhile Char.isDigit
    if ds.isEmpty then JsNum.nan else JsNum.num (digitsToNat ds)

/-- Translation of `toInt` (src/app.js line 31): `Number(s)` when that
is finite, otherwise the default `d`. -/
def toInt (s : String) (d : JsNum) : JsNum :=
  match jsNumber s with
  | JsNum.num q => JsNum.num q
  | _ => d

/-- Translation of the `STICKY_PRESET` configuration (line 34):
`(process.env.STICKY_PRESET || '0') === '1'`.  The argument is the raw
environment value, `none` when the variable is unset. -/
def STICKY_PRESET (env : Option String) : Bool :=
  (match env with | none => "0" | some s => if s = "" then "0" else s) = "1"

/-- Translation of `OBJ` (line 35): `Number(ALLOC_OBJECTS ?? (sticky ? 120 : 8))`. -/
def OBJ (sticky : Bool) (env : Option String) : JsNum :=
  match env with
  | none => JsNum.num (if sticky then 120 else 8)
  | some s => jsNumber s

/-- Translation of `SIZE_MB_RAW` (line 36): `Number(ALLOC_SIZE_MB ?? (sticky ? 1.5 : 16))`. -/
def SIZE_MB_RAW (sticky : Bool) (env : Option String) : JsNum :=
  match env with
  | none => JsNum.num (if sticky then 3/2 else 16)
  | some s => jsNumber s

/-- Translation of `HOLD` (line 37): `Number(HOLD_MS ?? 1500)`. -/
def HOLD (env : Option String) : JsNum :=
  match env with
  | none => JsNum.num 1500
  | some s => jsNumber s

/-- Translation of `TARGET_UTIL` (line 38):
`Math.min(Math.max(Number(TARGET_UTIL || 0.80), 0.10), 0.95)`.  An
unset or empty variable falls back to 0.80 via `||`; any other string
goes through `Number`. -/
def TARGET_UTIL (env : Option String) : JsNum :=
  jsMin
    (jsMax
      (match env with
       | none => JsNum.num (4/5)
       | some s => if s = "" then JsNum.num (4/5) else jsNumber s)
      (JsNum.num (1/10)))
    (JsNum.num (19/20))

/-- Translation of `SIZE_BYTES` (line 39):
`Math.max(1, Math.floor(SIZE_MB_RAW * MB))` with `MB = 1024*1024`. -/
def SIZE_BYTES (sticky : Bool) (env : Option String) : JsNum :=
  jsMax (JsNum.num 1) (jsFloor (jsMul (SIZE_MB_RAW sticky env) (JsNum.num 1048576)))

/-- Boolean prefix test on character lists. -/
def isPref : List Char → List Char → Bool
  | [], _ => true
  | _ :: _, [] => false
  | p :: ps, c :: cs => p = c && isPref ps cs

/-- Boolean substring test: does `pat` occur contiguously in the list? -/
def hasSub (pat : List Char) : List Char → Bool
  | [] => isPref pat []
  | c :: cs => isPref pat (c :: cs) || hasSub pat cs

/-- Translation of `thpMode` (lines 42-48).  The argument is the result
of `rd` on the THP control file; `rd(p) || ''` maps an unreadable file
to the empty string.  The three regex tests `/\[always\]/` etc. are
substring tests for the bracketed tokens, tried in that order, and the
fallback is `t.trim() || 'unknown'`. -/
def thpMode (file : Option String) : String :=
  let t := file.getD ""
  if hasSub "[always]".data t.data then "always"
  else if hasSub "[madvise]".data t.data then "madvise"
  else if hasSub "[never]".data t.data then "never"
  else if t.trim = "" then "unknown" else t.trim

/-- Drop an exact prefix from a character list, or fail. -/
def dropPref : List Char → List Char → Option (List Char)
  | [], cs => some cs
  | _ :: _, [] => none
  | p :: ps, c :: cs => if c = p then dropPref ps cs else none

/-- Match of the regex `^Key:\s+(\d+) kB` at one position (a line
start): the key, a colon, at least one whitespace character (which in
the regex may include newlines), a maximal digit run, then the literal
text ` kB`.  Returns the digit value. -/
def matchKeyAt (key : List Char) (cs : List Char) : Option ℕ :=
  match dropPref (key ++ [':']) cs with
  | none => none
  | some cs1 =>
    let ws := cs1.takeWhile (fun c => wsChar c)
    if ws.isEmpty then none
    else
      let cs2 := cs1.drop ws.length
      let ds := cs2.takeWhile Char.isDigit
      if ds.isEmpty then none
      else
        let cs3 := cs2.drop ds.length
        match cs3 with
        | ' ' :: 'k' :: 'B' :: _ => some (digitsToNat ds)
        | _ => none

/-- Suffixes of the text that begin just after each newline, in order:
the positions at which a multiline `^` anchor can match besides the
start of the string. -/
def lineStarts : List Char → List (List Char)
  | [] => []
  | c :: cs => if c = '\n' then cs :: lineStarts cs else lineStarts cs

/-- First successful match over a list of positions, or 0. -/
def firstMatch (key : List Char) : List (List Char) → ℕ
  | [] => 0
  | p :: ps =>
    match matchKeyAt key p with
    | some n => n
    | none => firstMatch key ps

/-- Translation of `parseKeyKB` (lines 67-70): first match of
`^key:\s+(\d+) kB` in multiline mode, else 0. -/
def parseKeyKB (text : String) (key : String) : ℕ :=
  firstMatch key.data (text.data :: lineStarts text.data)

mutual

/-- JavaScript `split(/\s+/)`: reading a token (accumulated reversed in
`cur`). -/
def splitWsTok : List Char → List Char → List String
  | [], cur => [String.mk cur.reverse]
  | c :: cs, cur =>
    if wsChar c then String.mk cur.reverse :: splitWsSep cs
    else splitWsTok cs (c :: cur)

/-- JavaScript `split(/\s+/)`: inside a (maximal) separator run. -/
def splitWsSep : List Char → List String
  | [] => [""]
  | c :: cs => if wsChar c then splitWsSep cs else splitWsTok cs [c]

end

/-- JavaScript `s.split(/\s+/)`. -/
def jsSplitWs (s : String) : List String := splitWsTok s.data []

/-- The expression `line.split(/\s+/)[1] || '0'` from the smaps loop
(lines 78-79): the second whitespace-separated field, with `'0'` when it
is missing or empty. -/
def smapsField (line : String) : String :=
  match jsSplitWs line with
  | _ :: t :: _ => if t = "" then "0" else t
  | _ => "0"

/-- The accumulation loop over `/proc/self/smaps` lines (lines 76-81):
one pass over the lines, adding the parsed second field of each
`Rss:`-line to the first component and of each `AnonHugePages:`-line to
the second. -/
def smapsTotals (s : String) : JsNum × JsNum :=
  (s.splitOn "\n").foldl
    (fun acc line =>
      if String.isPrefixOf "Rss:" line then
        (jsAdd acc.1 (parseIntJs (smapsField line)), acc.2)
      else if String.isPrefixOf "AnonHugePages:" line then
        (acc.1, jsAdd acc.2 (parseIntJs (smapsField line)))
      else acc)
    (JsNum.num 0, JsNum.num 0)

/-- JavaScript truthiness of an `rd` result: `null` and the empty
string are falsy. -/
def jsTruthy : Option String → Option String
  | some s => if s = "" then none else some s
  | none => none

/-- The value produced by `readMem` (spec name: MemorySnapshot): the
two kB figures. -/
structure MemSnapshot where
  rssKB : JsNum
  anonHugeKB : JsNum
  deriving DecidableEq

/-- The readable `/proc` files, each `none` when the read fails. -/
structure ProcFiles where
  smapsRollup : Option String
  smaps : Option String
  status : Option String
  meminfo : Option String

/-- Tier 1 of `readMem` (line 73): parse `Rss` and `AnonHugePages` out
of `/proc/self/smaps_rollup`. -/
def rollupSnap (r : String) : MemSnapshot :=
  ⟨JsNum.num (parseKeyKB r "Rss"), JsNum.num (parseKeyKB r "AnonHugePages")⟩

/-- Tier 2 of `readMem` (lines 75-81): sum the two keys across every
record of `/proc/self/smaps`. -/
def smapsSnap (s : String) : MemSnapshot :=
  ⟨(smapsTotals s).1, (smapsTotals s).2⟩

/-- Tier 3 of `readMem` (lines 83-88): `VmRSS` from `/proc/self/status`
(falling back to the runtime's self-reported resident size, rounded to
kB) and `AnonHugePages` from `/proc/meminfo` (falling back to 0). -/
def statusSnap (status meminfo : Option String) (selfRssBytes : ℚ) : MemSnapshot :=
  ⟨(match jsTruthy status with
    | some st => JsNum.num (parseKeyKB st "VmRSS")
    | none => JsNum.num (jsRound (selfRssBytes / 1024))),
   (match jsTruthy meminfo with
    | some mi => JsNum.num (parseKeyKB mi "AnonHugePages")
    | none => JsNum.num 0)⟩

/-- Translation of `readMem` (lines 71-89): try the rollup file, then
the detailed smaps file, then the status/meminfo pair; a failed (or
empty, hence falsy) read only moves to the next tier. -/
def readMem (f : ProcFiles) (selfRssBytes : ℚ) : MemSnapshot :=
  match jsTruthy f.smapsRollup with
  | some r => rollupSnap r
  | none =>
    match jsTruthy f.smaps with
    | some s => smapsSnap s
    | none => statusSnap f.status f.meminfo selfRssBytes

/-- Translation of `planObjects` (lines 111-118).  The cgroup limit is
`none` when `cgLimitBytes()` reports Infinity (no limit file, or the v2
`max` token); `TARGET_UTIL` and the current usage are passed as
parameters.  Double arithmetic is modelled as exact rational
arithmetic. -/
def planObjects (objects sizeBytes util : ℚ) (limit : Option ℚ) (cur : ℚ) : ℚ :=
  match limit with
  | none => objects
  | some l =>
    if l ≤ 0 then objects
    else
      let headroom := max 0 (util * l - cur)
      let fit := max 1 ((Rat.floor (headroom / sizeBytes) : ℤ) : ℚ)
      min objects fit

/-- Reference definition of the planner, written from the words of the
specification: if the limit is unlimited (non-finite) or non-positive,
return the requested count unchanged; otherwise
`min(requestedCount, max(1, floor(max(0, targetUtilization*limitBytes - currentUsageBytes) / bufferSizeBytes)))`. -/
def planRefSpec (requestedCount bufferSizeBytes targetUtilization : ℚ)
    (limit : Option ℚ) (currentUsageBytes : ℚ) : ℚ :=
  match limit with
  | none => requestedCount
  | some limitBytes =>
    if limitBytes ≤ 0 then requestedCount
    else
      min requestedCount
        (max 1 ((Rat.floor
          (max 0 (targetUtilization * limitBytes - currentUsageBytes) / bufferSizeBytes) : ℤ) : ℚ))

/-- Translation of the loop of `touch` (lines 102-105): the sequence of
(index, written byte) pairs produced by
`for (let i = 0; i < buf.length; i += page) buf[i] = 1` with page size
4096, started at index `i`. -/
def touchLoop (len i : ℕ) : List (ℕ × ℕ) :=
  if h : i < len then (i, 1) :: touchLoop len (i + 4096) else []
termination_by len - i
decreasing_by omega

/-- Translation of `touch` (lines 102-106): the page-start writes
followed by the final-byte write when the length is not a multiple of
the page size (`if (buf.length % page) buf[buf.length - 1] = 1`). -/
def touch (len : ℕ) : List (ℕ × ℕ) :=
  touchLoop len 0 ++ (if len % 4096 ≠ 0 then [(len - 1, 1)] else [])

/-- Translation of the loop of the second variant's `touch`
(lines 203-207 of the second source document). -/
def touchLoopV2 (len i : ℕ) : List (ℕ × ℕ) :=
  if h : i < len then (i, 1) :: touchLoopV2 len (i + 4096) else []
termination_by len - i
decreasing_by omega

/-- Translation of the second variant's `touch` (lines 203-207). -/
def touchV2 (len : ℕ) : List (ℕ × ℕ) :=
  touchLoopV2 len 0 ++ (if len % 4096 ≠ 0 then [(len - 1, 1)] else [])

/-- Observable events of one `wave` execution, in program order. -/
inductive Event where
  | throttleLog (requested planned : ℚ)
  | snapBefore (planned sizeBytes : ℚ)
  | allocOk (i : ℕ)
  | allocError (msg : String)
  | snapAfterAlloc
  | sleepMs (ms : ℚ)
  | freeAll (count : ℕ)
  | gcRun
  | gcWarn
  | snapAfterFree
  deriving DecidableEq

/-- The `try` block of `wave` (lines 130-138): allocate and touch
buffers at indices `i, i+1, ...` for `rem` steps.  `alloc j = some msg`
means the j-th `Buffer.allocUnsafe` call throws with message `msg`; the
`catch` handler logs the error, and the AFTER-allocate snapshot (which
is inside the `try`) is printed only when the whole loop succeeds. -/
def allocRun (alloc : ℕ → Option String) : ℕ → ℕ → List Event
  | _, 0 => [Event.snapAfterAlloc]
  | i, rem + 1 =>
    match alloc i with
    | some msg => [Event.allocError msg]
    | none => Event.allocOk i :: allocRun alloc (i + 1) rem

/-- Number of iterations of a JavaScript `for (let i = 0; i < x; i++)`
loop with a finite bound `x`. -/
def jsLoopCount (x : ℚ) : ℕ := (Rat.ceil x).toNat

/-- Translation of `wave` (lines 120-152) as the list of observable
events: the optional throttle notice, the BEFORE-allocate snapshot, the
guarded allocation loop, the hold sleep, the free loop (dropping all
`planned` references), the GC call or the missing-GC warning, the
AFTER-free snapshot, and the cooldown sleep. -/
def waveEvents (objects sizeBytes holdMs util : ℚ) (limit : Option ℚ) (cur : ℚ)
    (alloc : ℕ → Option String) (gcAvailable : Bool) : List Event :=
  let planned := planObjects objects sizeBytes util limit cur
  let n := jsLoopCount planned
  (if planned < objects then [Event.throttleLog objects planned] else [])
    ++ [Event.snapBefore planned sizeBytes]
    ++ allocRun alloc 0 n
    ++ [Event.sleepMs holdMs]
    ++ [Event.freeAll n]
    ++ (if gcAvailable then [Event.gcRun] else [Event.gcWarn])
    ++ [Event.snapAfterFree]
    ++ [Event.sleepMs 1000]

/-! Theorems. -/

/-- Batteries' computable rational floor is Mathlib's floor. -/
theorem ratFloor_eq (q : ℚ) : Rat.floor q = ⌊q⌋ := rfl

/-- C1: the Allocation Planner agrees with the reference definition on
every input, and on the worked example
`plan(100, 10_000_000, 0.80, limit 1_000_000_000, current 0)` it plans
exactly 80 buffers. -/
theorem planObjects_matches_reference :
    (∀ (objects sizeBytes util : ℚ) (limit : Option ℚ) (cur : ℚ),
      planObjects objects sizeBytes util limit cur =
        planRefSpec objects sizeBytes util limit cur) ∧
    planObjects 100 10000000 (4/5) (some 1000000000) 0 = 80 := by
  constructor
  · intro objects sizeBytes util limit cur
    cases limit with
    | none => rfl
    | some l => rfl
  · simp only [planObjects, ratFloor_eq]
    norm_num

/-- C9: the planner only ever reduces the requested count, never
enlarges it. -/
theorem planObjects_le_requested (objects sizeBytes util : ℚ) (limit : Option ℚ) (cur : ℚ) :
    planObjects objects sizeBytes util limit cur ≤ objects := by
  cases limit with
  | none => exact le_refl objects
  | some l =>
    by_cases hl : l ≤ 0
    · simp only [planObjects, if_pos hl]
      exact le_rfl
    · simp only [planObjects, if_neg hl]
      exact min_le_left _ _

/-- C2(counterexample): the claim quantifies over every requested
count; with requested count 0 and zero headroom (usage equal to the
limit) the planner returns 0, which is less than 1. -/
theorem planObjects_below_one_at_zero_request :
    planObjects 0 1048576 (4/5) (some 1048576) 1048576 < 1 := by
  simp only [planObjects, ratFloor_eq]
  norm_num

/-- C2(amended): for a requested count of at least 1 (and a positive
buffer size, the case realised by the program since `SIZE_BYTES ≥ 1`)
the planner never returns a count less than 1, even with zero
headroom. -/
theorem planObjects_ge_one (objects sizeBytes util : ℚ) (limit : Option ℚ) (cur : ℚ)
    (hobj : 1 ≤ objects) (_hsize : 0 < sizeBytes) :
    1 ≤ planObjects objects sizeBytes util limit cur := by
  cases limit with
  | none => exact hobj
  | some l =>
    by_cases hl : l ≤ 0
    · simp only [planObjects, if_pos hl]; exact hobj
    · simp only [planObjects, if_neg hl]
      exact le_min hobj (le_max_left 1 _)

/-- C2(witness): concrete instance of the amended lower bound, with the
current usage equal to the limit (zero headroom). -/
theorem planObjects_ge_one_witness :
    1 ≤ planObjects 5 1024 (4/5) (some 4096) 4096 :=
  planObjects_ge_one 5 1024 (4/5) (some 4096) 4096 (by norm_num) (by norm_num)

/-- JsNum NaN absorbs jsMax on the right. -/
theorem jsMax_nan_right (x : JsNum) : jsMax x JsNum.nan = JsNum.nan := by
  cases x <;> rfl

/-- C3(counterexample): a non-numeric `TARGET_UTIL` environment value is
not coerced to the default 0.80: `Number('abc')` is NaN, which
`Math.max`/`Math.min` propagate, so the effective value is NaN rather
than the claimed 0.80. -/
theorem targetUtil_nonnumeric_nan :
    TARGET_UTIL (some "abc") = JsNum.nan ∧ JsNum.nan ≠ JsNum.num (4/5) := by
  constructor
  · decide
  · decide

/-- C3(amended): configuration construction is total (never throws),
but a malformed (non-numeric) value is not coerced to the documented
default: `ALLOC_OBJECTS`, `ALLOC_SIZE_MB`, `HOLD_MS` and `TARGET_UTIL`
all become NaN, and the derived `SIZE_BYTES` is NaN too; the
NaN-detecting coercion `toInt` is applied only to the cgroup file
values, where it does return its default. -/
theorem config_nan_propagates (s : String) (h : jsNumber s = JsNum.nan) :
    (∀ sticky, OBJ sticky (some s) = JsNum.nan) ∧
    (∀ sticky, SIZE_MB_RAW sticky (some s) = JsNum.nan) ∧
    HOLD (some s) = JsNum.nan ∧
    TARGET_UTIL (some s) = JsNum.nan ∧
    (∀ sticky, SIZE_BYTES sticky (some s) = JsNum.nan) ∧
    (∀ d, toInt s d = d) := by
  have hs : ¬ s = "" := by
    intro he
    rw [he] at h
    exact absurd h (by decide)
  refine ⟨fun _ => ?_, fun _ => ?_, ?_, ?_, fun sticky => ?_, fun d => ?_⟩
  · simp [OBJ, h]
  · simp [SIZE_MB_RAW, h]
  · simp [HOLD, h]
  · simp [TARGET_UTIL, hs, h, jsMax, jsMin]
  · simp [SIZE_BYTES, SIZE_MB_RAW, h, jsMul, jsFloor, jsMax]
  · simp [toInt, h]

/-- C3(witness): the amended NaN propagation at the concrete malformed
input `abc`. -/
theorem config_nan_propagates_witness :
    TARGET_UTIL (some "abc") = JsNum.nan ∧ HOLD (some "abc") = JsNum.nan :=
  ⟨(config_nan_propagates "abc" (by decide)).2.2.2.1,
   (config_nan_propagates "abc" (by decide)).2.2.1⟩

/-- C7(counterexample): the bracketed tokens are tested in the fixed
order always, madvise, never, so an input that contains both
`[always]` and `[madvise]` yields "always": a bracketed madvise token
does not always yield "madvise". -/
theorem thpMode_priority_counterexample :
    hasSub "[madvise]".data "[always] [madvise]".data = true ∧
    thpMode (some "[always] [madvise]") = "always" ∧
    "always" ≠ "madvise" := by
  refine ⟨by decide, by decide, by decide⟩

/-- C7(amended): the bracketed tokens decide the mode in the priority
order always, madvise, never; with no recognized bracketed token the
result is the raw trimmed text, or "unknown" when that is empty — in
particular when the file is unreadable, since `rd(...) || ''` maps a
failed read to the empty string. -/
theorem thpMode_characterisation (file : Option String) :
    (hasSub "[always]".data (file.getD "").data = true → thpMode file = "always") ∧
    (hasSub "[always]".data (file.getD "").data = false →
      hasSub "[madvise]".data (file.getD "").data = true → thpMode file = "madvise") ∧
    (hasSub "[always]".data (file.getD "").data = false →
      hasSub "[madvise]".data (file.getD "").data = false →
      hasSub "[never]".data (file.getD "").data = true → thpMode file = "never") ∧
    (hasSub "[always]".data (file.getD "").data = false →
      hasSub "[madvise]".data (file.getD "").data = false →
      hasSub "[never]".data (file.getD "").data = false →
      thpMode file =
        (if (file.getD "").trim = "" then "unknown" else (file.getD "").trim)) := by
  refine ⟨?_, ?_, ?_, ?_⟩
  · intro h1
    simp [thpMode, h1]
  · intro h1 h2
    simp [thpMode, h1, h2]
  · intro h1 h2 h3
    simp [thpMode, h1, h2, h3]
  · intro h1 h2 h3
    simp [thpMode, h1, h2, h3]

/-- C7(witness): the amended characterisation at a concrete input whose
only bracketed token is madvise. -/
theorem thpMode_characterisation_witness :
    thpMode (some "always [madvise] never") = "madvise" :=
  (thpMode_characterisation (some "always [madvise] never")).2.1 (by decide) (by decide)

/-- Membership in the touch loop started at `s`: exactly the indices
`s, s + 4096, s + 2*4096, ...` below `len`, each written with byte 1. -/
theorem touchLoop_mem (len s i v : ℕ) :
    (i, v) ∈ touchLoop len s ↔ v = 1 ∧ (∃ k, i = s + 4096 * k) ∧ i < len := by
  rw [touchLoop]
  split
  · next hlt =>
    rw [List.mem_cons, touchLoop_mem len (s + 4096) i v]
    constructor
    · rintro (heq | ⟨hv, ⟨k, hk⟩, hi⟩)
      · rw [Prod.mk.injEq] at heq
        exact ⟨heq.2, ⟨0, by omega⟩, by omega⟩
      · exact ⟨hv, ⟨k + 1, by omega⟩, hi⟩
    · rintro ⟨hv, ⟨k, hk⟩, hi⟩
      cases k with
      | zero => exact Or.inl (by rw [Prod.mk.injEq]; omega)
      | succ k => exact Or.inr ⟨hv, ⟨k, by omega⟩, hi⟩
  · next hge =>
    simp only [List.not_mem_nil, false_iff]
    rintro ⟨hv, ⟨k, hk⟩, hi⟩
    omega
termination_by len - s
decreasing_by omega

/-- C8: for a buffer of length at least 1, the touch routine writes the
byte 1 exactly at every page-aligned index below the length, plus the
final index exactly when the length is not page-aligned, and at no
other index. -/
theorem touch_writes (len : ℕ) (_hlen : 1 ≤ len) (i v : ℕ) :
    (i, v) ∈ touch len ↔
      v = 1 ∧ ((4096 ∣ i ∧ i < len) ∨ (len % 4096 ≠ 0 ∧ i = len - 1)) := by
  unfold touch
  rw [List.mem_append, touchLoop_mem]
  have hdvd : (∃ k, i = 0 + 4096 * k) ↔ 4096 ∣ i := by
    constructor
    · rintro ⟨k, hk⟩; exact ⟨k, by omega⟩
    · rintro ⟨k, hk⟩; exact ⟨k, by omega⟩
  rw [hdvd]
  by_cases hmod : len % 4096 ≠ 0
  · simp only [if_pos hmod, List.mem_singleton, Prod.mk.injEq]
    constructor
    · rintro (⟨hv, hd, hi⟩ | ⟨hi, hv⟩)
      · exact ⟨hv, Or.inl ⟨hd, hi⟩⟩
      · exact ⟨hv, Or.inr ⟨hmod, hi⟩⟩
    · rintro ⟨hv, ⟨hd, hi⟩ | ⟨_, hi⟩⟩
      · exact Or.inl ⟨hv, hd, hi⟩
      · exact Or.inr ⟨hi, hv⟩
  · simp only [if_neg hmod, List.not_mem_nil, or_false]
    constructor
    · rintro ⟨hv, hd, hi⟩
      exact ⟨hv, Or.inl ⟨hd, hi⟩⟩
    · rintro ⟨hv, ⟨hd, hi⟩ | ⟨hbad, _⟩⟩
      · exact ⟨hv, hd, hi⟩
      · exact absurd hbad hmod

/-- C8(witness): the characterisation at a 5000-byte buffer and the
page-start index 4096. -/
theorem touch_writes_witness :
    (4096, 1) ∈ touch 5000 ↔
      1 = 1 ∧ ((4096 ∣ 4096 ∧ 4096 < 5000) ∨ (5000 % 4096 ≠ 0 ∧ 4096 = 5000 - 1)) :=
  touch_writes 5000 (by norm_num) 4096 1

/-- The two touch loops are the same function. -/
theorem touchLoop_eq_v2 (len s : ℕ) : touchLoop len s = touchLoopV2 len s := by
  rw [touchLoop, touchLoopV2]
  split
  · next h =>
    rw [touchLoop_eq_v2 len (s + 4096)]
  · rfl
termination_by len - s
decreasing_by omega

/-- C10: the two `touch` routines of the two source variants are
extensionally equal: on every buffer length they produce exactly the
same write sequence, so each refines the other. -/
theorem touch_variants_equal (len : ℕ) : touch len = touchV2 len := by
  unfold touch touchV2
  rw [touchLoop_eq_v2 len 0]

/-- C4: `readMem` is a total function of the available files and never
fails — a missing (or empty, hence falsy) file only selects the next
tier: the rollup parse when the rollup file is readable, otherwise the
sum over all records of the detailed smaps file, otherwise the
status/meminfo pair, whose own fallbacks are the runtime's
self-reported resident size (rounded to kB) and 0. -/
theorem readMem_fallback_total (f : ProcFiles) (selfRssBytes : ℚ) :
    (∀ r, jsTruthy f.smapsRollup = some r → readMem f selfRssBytes = rollupSnap r) ∧
    (jsTruthy f.smapsRollup = none →
      (∀ s, jsTruthy f.smaps = some s → readMem f selfRssBytes = smapsSnap s) ∧
      (jsTruthy f.smaps = none →
        readMem f selfRssBytes = statusSnap f.status f.meminfo selfRssBytes)) ∧
    (jsTruthy f.status = none →
      (statusSnap f.status f.meminfo selfRssBytes).rssKB
        = JsNum.num (jsRound (selfRssBytes / 1024))) ∧
    (jsTruthy f.meminfo = none →
      (statusSnap f.status f.meminfo selfRssBytes).anonHugeKB = JsNum.num 0) := by
  refine ⟨?_, ?_, ?_, ?_⟩
  · intro r h
    simp [readMem, h]
  · intro h0
    refine ⟨?_, ?_⟩
    · intro s h1
      simp [readMem, h0, h1]
    · intro h1
      simp [readMem, h0, h1]
  · intro h
    simp [statusSnap, h]
  · intro h
    simp [statusSnap, h]

/-- C4(witness): with the rollup file unreadable and a two-record smaps
file present, the reader returns the smaps record sum. -/
theorem readMem_fallback_total_witness :
    readMem (ProcFiles.mk none (some "Rss: 4 kB") none none) 0
      = smapsSnap "Rss: 4 kB" :=
  ((readMem_fallback_total (ProcFiles.mk none (some "Rss: 4 kB") none none) 0).2.1
    rfl).1 "Rss: 4 kB" (by decide)

/-- The AFTER-allocate snapshot appears in the allocation loop exactly
when no allocation step in range fails. -/
theorem allocRun_after_mem (alloc : ℕ → Option String) :
    ∀ rem s, Event.snapAfterAlloc ∈ allocRun alloc s rem ↔
      ∀ j < rem, alloc (s + j) = none := by
  intro rem
  induction rem with
  | zero =>
    intro s
    simp [allocRun]
  | succ rem ih =>
    intro s
    cases halloc : alloc s with
    | some msg =>
      simp only [allocRun, halloc]
      constructor
      · intro hmem
        exact absurd hmem (by simp)
      · intro hall
        have h0 := hall 0 (Nat.succ_pos rem)
        rw [Nat.add_zero, halloc] at h0
        exact absurd h0 (by simp)
    | none =>
      simp only [allocRun, halloc]
      rw [List.mem_cons]
      constructor
      · rintro (heq | hmem)
        · exact absurd heq (by simp)
        · intro j hj
          cases j with
          | zero =>
            rw [Nat.add_zero]
            exact halloc
          | succ j =>
            have hmem2 := (ih (s + 1)).mp hmem j (by omega)
            rwa [show s + 1 + j = s + (j + 1) from by omega] at hmem2
      · intro hall
        refine Or.inr ((ih (s + 1)).mpr ?_)
        intro j hj
        have h1 := hall (j + 1) (by omega)
        rwa [show s + (j + 1) = s + 1 + j from by omega] at h1

/-- The error log of the catch handler appears in the allocation loop
when the first failing step is in range. -/
theorem allocRun_error_mem (alloc : ℕ → Option String) (msg : String) :
    ∀ rem s k, (∀ j < k, alloc (s + j) = none) → alloc (s + k) = some msg → k < rem →
      Event.allocError msg ∈ allocRun alloc s rem := by
  intro rem
  induction rem with
  | zero =>
    intro s k _ _ hk
    omega
  | succ rem ih =>
    intro s k hpre hk hlt
    cases k with
    | zero =>
      rw [Nat.add_zero] at hk
      simp [allocRun, hk]
    | succ k =>
      have h0 : alloc s = none := by
        have h1 := hpre 0 (Nat.succ_pos k)
        rwa [Nat.add_zero] at h1
      simp only [allocRun, h0]
      rw [List.mem_cons]
      refine Or.inr (ih (s + 1) k ?_ ?_ (by omega))
      · intro j hj
        have h1 := hpre (j + 1) (by omega)
        rwa [show s + (j + 1) = s + 1 + j from by omega] at h1
      · rwa [show s + (k + 1) = s + 1 + k from by omega] at hk

/-- C6(counterexample): when the very first allocation fails, the wave
emits no AFTER-allocate snapshot (the print is inside the `try`), so
not every execution emits all three labelled snapshots. -/
theorem wave_missing_after_allocate :
    Event.snapAfterAlloc ∉
      waveEvents 2 1024 100 (4/5) none 0 (fun _ => some "oom") true := by decide

/-- C6(amended): every wave execution emits the BEFORE-allocate and
AFTER-free snapshots; the AFTER-allocate snapshot is emitted exactly
when no allocation step of the planned count fails. -/
theorem wave_snapshot_emission (objects sizeBytes holdMs util : ℚ) (limit : Option ℚ)
    (cur : ℚ) (alloc : ℕ → Option String) (gcAvailable : Bool) :
    Event.snapBefore (planObjects objects sizeBytes util limit cur) sizeBytes
        ∈ waveEvents objects sizeBytes holdMs util limit cur alloc gcAvailable ∧
    Event.snapAfterFree
        ∈ waveEvents objects sizeBytes holdMs util limit cur alloc gcAvailable ∧
    (Event.snapAfterAlloc
        ∈ waveEvents objects sizeBytes holdMs util limit cur alloc gcAvailable ↔
      ∀ j < jsLoopCount (planObjects objects sizeBytes util limit cur),
        alloc j = none) := by
  refine ⟨?_, ?_, ?_⟩ <;>
  · unfold waveEvents
    by_cases ht : planObjects objects sizeBytes util limit cur < objects <;>
      cases gcAvailable <;>
        simp [ht, allocRun_after_mem, Nat.zero_add]

/-- C5: when an allocation step fails mid-wave (first failure at index
`i` within the planned count), the error is caught and logged with the
underlying message, and the wave still proceeds to the hold sleep, the
free loop over all planned slots, and the AFTER-free snapshot; the
event list is total, so the process does not terminate. -/
theorem wave_alloc_failure_contained (objects sizeBytes holdMs util : ℚ)
    (limit : Option ℚ) (cur : ℚ) (alloc : ℕ → Option String) (gcAvailable : Bool)
    (i : ℕ) (msg : String)
    (hpre : ∀ j < i, alloc j = none) (hi : alloc i = some msg)
    (hn : i < jsLoopCount (planObjects objects sizeBytes util limit cur)) :
    Event.allocError msg
        ∈ waveEvents objects sizeBytes holdMs util limit cur alloc gcAvailable ∧
    Event.sleepMs holdMs
        ∈ waveEvents objects sizeBytes holdMs util limit cur alloc gcAvailable ∧
    Event.freeAll (jsLoopCount (planObjects objects sizeBytes util limit cur))
        ∈ waveEvents objects sizeBytes holdMs util limit cur alloc gcAvailable ∧
    Event.snapAfterFree
        ∈ waveEvents objects sizeBytes holdMs util limit cur alloc gcAvailable := by
  have herr : Event.allocError msg ∈
      allocRun alloc 0 (jsLoopCount (planObjects objects sizeBytes util limit cur)) := by
    refine allocRun_error_mem alloc msg _ 0 i ?_ ?_ hn
    · intro j hj
      rw [Nat.zero_add]
      exact hpre j hj
    · rw [Nat.zero_add]
      exact hi
  refine ⟨?_, ?_, ?_, ?_⟩ <;>
  · unfold waveEvents
    by_cases ht : planObjects objects sizeBytes util limit cur < objects <;>
      cases gcAvailable <;>
        simp [ht, herr]

/-- C5(witness): with the second allocation failing, the wave at
concrete parameters logs the error and still reaches the hold, free and
AFTER-free events. -/
theorem wave_alloc_failure_contained_witness :
    Event.allocError "oom"
        ∈ waveEvents 2 1024 100 (4/5) none 0
            (fun j => if j = 0 then none else some "oom") true ∧
    Event.sleepMs 100
        ∈ waveEvents 2 1024 100 (4/5) none 0
            (fun j => if j = 0 then none else some "oom") true ∧
    Event.freeAll (jsLoopCount (planObjects 2 1024 (4/5) none 0))
        ∈ waveEvents 2 1024 100 (4/5) none 0
            (fun j => if j = 0 then none else some "oom") true ∧
    Event.snapAfterFree
        ∈ waveEvents 2 1024 100 (4/5) none 0
            (fun j => if j = 0 then none else some "oom") true :=
  wave_alloc_failure_contained 2 1024 100 (4/5) none 0
    (fun j => if j = 0 then none else some "oom") true 1 "oom"
    (by decide) (by decide) (by decide)

end ThpDemo
